import Mathlib

/-!
Verification development for the `DataSift` interpolation engine of the
AstroPlasma repository (`src/astro_plasma/core/datasift.py`).

The engine is shallowly embedded: axis coordinate arrays and query values
become `List ℚ` / `ℚ`, Python integers become `ℤ`/`ℕ` (Python `//` is
`Int.fdiv`, Python `%` with a positive modulus is `Int.emod`), numpy
arrays of table rows become `List (List ℚ)`, and fallible code returns
`Except String`.  External numeric routines that the code calls
(`np.sqrt` for the distance norm, the caller-supplied `scaling_func`)
are parameters of the model, exactly as `scaling_func` is a parameter of
the source function.
-/

namespace AstroPlasma

/-- The constant `epsilon = 1e-15` used as a positive floor for zero distances
(`_interpolate`, line 428). -/
def epsilon : ℚ := 1 / 10 ^ 15

/-- Grid state built in `DataSift.__init__`: the four sorted coordinate axes
(`params/nH`, `params/temperature`, `params/metallicity`, `params/redshift`)
and the batch size (`np.prod(header/batch_dim)`). -/
structure DataSift where
  nH_data : List ℚ
  T_data : List ℚ
  Z_data : List ℚ
  red_data : List ℚ
  batch_size : ℕ
deriving DecidableEq

/-- `DataSift._get_counter`: the row-major linear index
`m*|Z|*|T|*|nH| + k*|T|*|nH| + j*|nH| + i` of a grid cell. -/
def DataSift.getCounter (ds : DataSift) (i j k m : ℤ) : ℤ :=
  m * ds.Z_data.length * ds.T_data.length * ds.nH_data.length
    + k * ds.T_data.length * ds.nH_data.length
    + j * ds.nH_data.length
    + i

/-- `DataSift._identify_batch`: `_get_counter(i,j,k,m) // batch_size`
(Python floor division). -/
def DataSift.identifyBatch (ds : DataSift) (i j k m : ℤ) : ℤ :=
  Int.fdiv (ds.getCounter i j k m) (ds.batch_size : ℤ)

/-- The in-batch row offset computed at `_interpolate` line 448:
`_get_counter(i, j, k, m) % self.batch_size - 1` (Python `%` is `Int.emod`
for a positive modulus). -/
def DataSift.localPos (ds : DataSift) (i j k m : ℤ) : ℤ :=
  ds.getCounter i j k m % (ds.batch_size : ℤ) - 1

/-- One axis of `DataSift._transform_edges`: a candidate index equal to the
axis length is decremented, then a candidate index equal to `-1` is
incremented, with a warning logged in each case (the second component counts
the warnings emitted). -/
def clampAxis (len : ℕ) (x : ℤ) : ℤ × ℕ :=
  let p1 := if x = (len : ℤ) then ((x - 1 : ℤ), 1) else (x, 0)
  if p1.1 = -1 then (p1.1 + 1, p1.2 + 1) else (p1.1, p1.2)

/-- `DataSift._transform_edges` applied to all four indices; the second
component is the total number of boundary warnings logged. -/
def DataSift.transformEdges (ds : DataSift) (i j k m : ℤ) : (ℤ × ℤ × ℤ × ℤ) × ℕ :=
  let pi := clampAxis ds.nH_data.length i
  let pj := clampAxis ds.T_data.length j
  let pk := clampAxis ds.Z_data.length k
  let pm := clampAxis ds.red_data.length m
  ((pi.1, pj.1, pk.1, pm.1), pi.2 + pj.2 + pk.2 + pm.2)

/-- One axis of `DataSift._identify_pos_in_each_dim`: if the query value
equals exactly one axis entry at index `e` the candidates are
`[e-1, e, e+1]`, otherwise they are `[s-1, s]` where
`s = np.sum(query > data)` counts the axis entries strictly below the
query. -/
def identifyPosAxis (data : List ℚ) (q : ℚ) : List ℤ :=
  if data.countP (fun v => q == v) = 1 then
    let e := data.findIdx (fun v => q == v)
    [(e : ℤ) - 1, (e : ℤ), (e : ℤ) + 1]
  else
    [(data.countP (fun v => decide (v < q)) : ℤ) - 1,
     (data.countP (fun v => decide (v < q)) : ℤ)]

/-- `itertools.product(i_vals, j_vals, k_vals, m_vals)` with the last factor
varying fastest. -/
def product4 (is js ks ms : List ℤ) : List (ℤ × ℤ × ℤ × ℤ) :=
  is.flatMap fun i => js.flatMap fun j => ks.flatMap fun k => ms.map fun m => (i, j, k, m)

/-- The clamped neighbor cells of one query point: the Cartesian product of
the per-axis candidate lists, each tuple passed through `_transform_edges`
(this is the loop header shared by `_find_all_batches_single` and the inner
loop of `_interpolate`). -/
def DataSift.neighborCellsClamped (ds : DataSift) (nH T Z red : ℚ) : List (ℤ × ℤ × ℤ × ℤ) :=
  (product4 (identifyPosAxis ds.nH_data nH) (identifyPosAxis ds.T_data T)
      (identifyPosAxis ds.Z_data Z) (identifyPosAxis ds.red_data red)).map
    fun c => (ds.transformEdges c.1 c.2.1 c.2.2.1 c.2.2.2).1

/-- The batch id of a clamped cell (`_identify_batch` applied inside the
product loop). -/
def DataSift.cellBatch (ds : DataSift) (c : ℤ × ℤ × ℤ × ℤ) : ℤ :=
  ds.identifyBatch c.1 c.2.1 c.2.2.1 c.2.2.2

/-- `DataSift._find_all_batches_single`: the set of distinct batch ids of
the clamped neighbor cells of one query point (a Python `set`, modelled as a
deduplicated list). -/
def DataSift.findAllBatchesSingle (ds : DataSift) (nH T Z red : ℚ) : List ℤ :=
  ((ds.neighborCellsClamped nH T Z red).map fun c => ds.cellBatch c).dedup

/-- One query argument: a Python scalar (an `int`/`float`, or a 0-d numpy
array), or an array/list value carrying its numpy shape and its flattened
data. -/
inductive Arg where
  | scalar (v : ℚ)
  | array (shape : List ℕ) (flat : List ℚ)
deriving DecidableEq

/-- The array flag of `_process_arguments_flags`: lists, and numpy arrays of
rank at least one, are array-valued. -/
def Arg.isArray : Arg → Bool
  | .scalar _ => false
  | .array _ _ => true

/-- The dummy flag of `_process_arguments_flags`: an array-valued argument
whose `shape[0]` is `1`. -/
def Arg.isDummy : Arg → Bool
  | .scalar _ => false
  | .array s _ => s.headD 0 == 1

/-- The numpy shape of an argument (scalars have the empty shape). -/
def Arg.shape : Arg → List ℕ
  | .scalar _ => []
  | .array s _ => s

/-- The flattened 1-d data of an argument as built by `_prepare_arguments`:
a scalar is wrapped into a one-element array, an array is flattened. -/
def Arg.flat : Arg → List ℚ
  | .scalar v => [v]
  | .array _ f => f

/-- The four arguments of a call, in source order. -/
structure Args where
  nH : Arg
  temperature : Arg
  metallicity : Arg
  redshift : Arg
deriving DecidableEq

/-- The four arguments in the iteration order used by the source. -/
def Args.toList (a : Args) : List Arg :=
  [a.nH, a.temperature, a.metallicity, a.redshift]

/-- The message of the `ValueError` raised by `_prepare_arguments`. -/
def invalidArgsMsg : String :=
  "Check needed from user: Invalid input arguments which are not in compliance with each other! Code Aborted!"

/-- The message of the `ValueError` raised at `_interpolate` line 395 for an
unrecognized mode. -/
def invalidModeMsg (mode : String) : String :=
  "Problem! Invalid mode: " ++ mode ++ "."

/-- The message of the `ValueError` raised by `_find_all_batches` when the
union of batch ids is empty. -/
def noBatchesMsg : String :=
  "Problem identifying batches! Code Aborted!"

/-- The message of the `ValueError` raised at `_interpolate` line 451 when a
resolved batch id has no open handle. -/
def missingBatchMsg : String :=
  "Target batch id is not found."

/-- One step of the `_prepare_arguments` loop: a scalar argument leaves the
common shape untouched; an array argument fixes the common shape on first
sight and must match it afterwards. -/
def prepStep (acc : Option (List ℕ)) (a : Arg) : Except String (Option (List ℕ)) :=
  if a.isArray then
    match acc with
    | none => .ok (some a.shape)
    | some s => if s = a.shape then .ok acc else .error invalidArgsMsg
  else
    .ok acc

/-- The `_prepare_arguments` loop over all arguments, threading the common
shape. -/
def foldShape (acc : Option (List ℕ)) : List Arg → Except String (Option (List ℕ))
  | [] => .ok acc
  | a :: rest =>
    match prepStep acc a with
    | .error e => .error e
    | .ok acc2 => foldShape acc2 rest

/-- `DataSift._prepare_arguments`: validates that array arguments share one
shape, flattens every argument, defaults the input shape to `(1,)` when all
arguments are dummy arrays or none is an array, and fails otherwise when no
array fixed a shape. -/
def prepareArguments (argsL : List Arg) : Except String (List ℕ × List (List ℚ)) :=
  match foldShape none argsL with
  | .error e => .error e
  | .ok acc =>
    let acc := if argsL.countP Arg.isDummy = 4 ∨ argsL.countP Arg.isArray = 0 then
        some [1] else acc
    match acc with
    | some s => .ok (s, argsL.map Arg.flat)
    | none => .error invalidArgsMsg

/-- The per-argument selection shared by `_find_all_batches` (lines 214-220)
and the interpolation loop (lines 414-420): a dummy or scalar argument
contributes its single value, an array argument contributes its value at the
current flat index. -/
def selectArg (isArr isDummy : Bool) (col : List ℚ) (indx : ℕ) : ℚ :=
  if isDummy || !isArr then col.getD 0 0 else col.getD indx 0

/-- `DataSift._find_all_batches`: the union over all normalized query points
of the per-point batch-id sets; fails when the union is empty. -/
def DataSift.findAllBatches (ds : DataSift) (aF dF : List Bool) (shape : List ℕ)
    (coll : List (List ℚ)) : Except String (List ℤ) :=
  if dF.countP id = 4 ∨ aF.countP id = 0 then
    .ok (ds.findAllBatchesSingle ((coll.getD 0 []).getD 0 0) ((coll.getD 1 []).getD 0 0)
      ((coll.getD 2 []).getD 0 0) ((coll.getD 3 []).getD 0 0))
  else
    let all := (List.range shape.prod).foldl
      (fun acc indx => acc.union
        (ds.findAllBatchesSingle
          (selectArg (aF.getD 0 false) (dF.getD 0 false) (coll.getD 0 []) indx)
          (selectArg (aF.getD 1 false) (dF.getD 1 false) (coll.getD 1 []) indx)
          (selectArg (aF.getD 2 false) (dF.getD 2 false) (coll.getD 2 []) indx)
          (selectArg (aF.getD 3 false) (dF.getD 3 false) (coll.getD 3 []) indx)))
      []
    if all = [] then .error noBatchesMsg else .ok all

/-- Numpy row indexing `array[pos, :]`: a nonnegative index reads directly,
a negative index wraps from the end of the array. -/
def readRow (file : List (List ℚ)) (pos : ℤ) : List ℚ :=
  if 0 ≤ pos then file.getD pos.toNat []
  else file.getD ((file.length : ℤ) + pos).toNat []

/-- The two `np.piecewise` clamps of `_interpolate` lines 459-462: components
at or below `cut[0]` are raised to it, then components at or above `cut[1]`
are lowered to it. -/
def applyCut (cutL cutH : Option ℚ) (v : List ℚ) : List ℚ :=
  let v1 := match cutL with
    | some c => v.map fun x => if x ≤ c then c else x
    | none => v
  match cutH with
  | some c => v1.map fun x => if c ≤ x then c else x
  | none => v1

/-- `np.mean(all_values, axis=0)` at column `p`. -/
def colMean (values : List (List ℚ)) (p : ℕ) : ℚ :=
  (values.map fun v => v.getD p 0).sum / values.length

/-- The population variance of column `p`, i.e. the square of
`np.std(all_values, axis=0)`. -/
def colVar (values : List (List ℚ)) (p : ℕ) : ℚ :=
  (values.map fun v => (v.getD p 0 - colMean values p) ^ 2).sum / values.length

/-- The outlier mask of `_interpolate` line 468.  The source compares
`np.abs(x - mean) > 2.0 * np.std(...)`; as both sides are nonnegative this
is equivalent to `(x - mean)^2 > 4 * variance`, which is how the condition
is stated here so that it stays inside `ℚ`. -/
def isOutlier (values : List (List ℚ)) (p : ℕ) (x : ℚ) : Bool :=
  decide ((x - colMean values p) ^ 2 > 4 * colVar values p)

/-- `_interpolate` line 468: every matrix entry more than two standard
deviations from its column mean is replaced by `0`. -/
def filterOutliers (values : List (List ℚ)) : List (List ℚ) :=
  values.map fun row =>
    (List.range row.length).map fun p =>
      if isOutlier values p (row.getD p 0) then 0 else row.getD p 0

/-- `_interpolate` line 471: `all_weights.T @ all_values / np.sum(all_weights)`
computed on the outlier-filtered value matrix, one weighted average per
output column. -/
def combineEstimate (weights : List ℚ) (values : List (List ℚ)) : List ℚ :=
  let fv := filterOutliers values
  (List.range (fv.headD []).length).map fun p =>
    (List.zipWith (fun w v => w * List.getD v p 0) weights fv).sum / weights.sum

/-- The body of the neighbor-cell loop of `_interpolate` (lines 431-463) for
one already-clamped cell: compute the inverse-distance weight in the scaled
coordinate space (`sqrtF` models `np.sqrt`), resolve the cell's batch id,
fail when no open handle covers it, and otherwise read and cut the cell's
row. -/
def DataSift.collectCell (ds : DataSift) (sqrtF scaling : ℚ → ℚ)
    (store : ℤ → List (List ℚ)) (cutL cutH : Option ℚ) (opened : List ℤ)
    (nH T Z red : ℚ) (c : ℤ × ℤ × ℤ × ℤ) : Except String (ℚ × List ℚ) :=
  match c with
  | (i, j, k, m) =>
    let d_i := |scaling (ds.nH_data.getD i.toNat 0) - scaling nH|
    let d_j := |scaling (ds.T_data.getD j.toNat 0) - scaling T|
    let d_k := |scaling (ds.Z_data.getD k.toNat 0) - scaling Z|
    let d_m := |scaling (ds.red_data.getD m.toNat 0) - scaling red|
    let dist0 := sqrtF (d_i ^ 2 + d_j ^ 2 + d_k ^ 2 + d_m ^ 2)
    let dist := if dist0 ≤ 0 then epsilon else dist0
    let w := 1 / dist
    let b := ds.identifyBatch i j k m
    if b ∈ opened then
      .ok (w, applyCut cutL cutH (readRow (store b) (ds.localPos i j k m)))
    else
      .error missingBatchMsg

/-- The neighbor-cell loop of `_interpolate`, collecting weights and rows and
propagating the first missing-handle error. -/
def DataSift.collectCells (ds : DataSift) (sqrtF scaling : ℚ → ℚ)
    (store : ℤ → List (List ℚ)) (cutL cutH : Option ℚ) (opened : List ℤ)
    (nH T Z red : ℚ) : List (ℤ × ℤ × ℤ × ℤ) → Except String (List ℚ × List (List ℚ))
  | [] => .ok ([], [])
  | c :: rest =>
    match ds.collectCell sqrtF scaling store cutL cutH opened nH T Z red c with
    | .error e => .error e
    | .ok (w, v) =>
      match ds.collectCells sqrtF scaling store cutL cutH opened nH T Z red rest with
      | .error e => .error e
      | .ok (ws, vs) => .ok (w :: ws, v :: vs)

/-- The per-query-point body of `_interpolate` (lines 421-471): gather the
clamped neighbor cells, collect their weights and rows, and combine them into
one estimate vector. -/
def DataSift.pointEstimate (ds : DataSift) (sqrtF scaling : ℚ → ℚ)
    (store : ℤ → List (List ℚ)) (cutL cutH : Option ℚ) (opened : List ℤ)
    (nH T Z red : ℚ) : Except String (List ℚ) :=
  match ds.collectCells sqrtF scaling store cutL cutH opened nH T Z red
      (ds.neighborCellsClamped nH T Z red) with
  | .error e => .error e
  | .ok (ws, vs) => .ok (combineEstimate ws vs)

/-- The outer loop of `_interpolate` (lines 413-471) over the flat indices of
the normalized query batch. -/
def DataSift.interpPointsGo (ds : DataSift) (sqrtF scaling : ℚ → ℚ)
    (store : ℤ → List (List ℚ)) (cutL cutH : Option ℚ) (opened : List ℤ)
    (aF dF : List Bool) (coll : List (List ℚ)) :
    List ℕ → Except String (List (List ℚ))
  | [] => .ok []
  | indx :: rest =>
    match ds.pointEstimate sqrtF scaling store cutL cutH opened
        (selectArg (aF.getD 0 false) (dF.getD 0 false) (coll.getD 0 []) indx)
        (selectArg (aF.getD 1 false) (dF.getD 1 false) (coll.getD 1 []) indx)
        (selectArg (aF.getD 2 false) (dF.getD 2 false) (coll.getD 2 []) indx)
        (selectArg (aF.getD 3 false) (dF.getD 3 false) (coll.getD 3 []) indx) with
    | .error e => .error e
    | .ok v =>
      match ds.interpPointsGo sqrtF scaling store cutL cutH opened aF dF coll rest with
      | .error e => .error e
      | .ok vs => .ok (v :: vs)

/-- The instance fields that `_interpolate` lines 388-389 assign on the
long-lived `DataSift` object (`self._array_argument`, `self._dummy_array`,
`self._input_shape`, `self.argument_collection`); `none` models a field not
yet set. -/
structure DataSiftFields where
  arrayArgumentF : Option (List Bool)
  dummyArrayF : Option (List Bool)
  inputShapeF : Option (List ℕ)
  argumentCollectionF : Option (List (List ℚ))
deriving DecidableEq

/-- The value returned by `_interpolate`: either the single estimate vector
(`interp_value[0]`) or the reshaped batch result carrying its numpy shape
`input_shape + property_vector_shape`. -/
inductive InterpValue where
  | single (v : List ℚ)
  | batch (shape : List ℕ) (rows : List (List ℚ))
deriving DecidableEq

/-- The observable outcome of one `_interpolate` call: its returned value or
raised error, the batch ids passed to the downloader, and the batch ids whose
file handles were opened and closed during the call. -/
structure InterpOutcome where
  result : Except String (InterpValue × Bool)
  downloaded : List ℤ
  opened : List ℤ
  closed : List ℤ

/-- `DataSift._interpolate` with the instance-field mutation made explicit:
the call maps a pre-state of the object's fields to a post-state and an
outcome.  Lines 388-389 store the argument flags and, when
`_prepare_arguments` succeeds, the input shape and flattened argument
collection on `self`; then mode validation, batch resolution, the downloader
call, handle opening, the per-point loop, handle closing, and the final
reshape follow the source order. -/
def DataSift.interpolateCore (ds : DataSift) (sqrtF : ℚ → ℚ)
    (store : ℤ → List (List ℚ)) (args : Args) (mode : String) (scaling : ℚ → ℚ)
    (cutL cutH : Option ℚ) (st : DataSiftFields) : DataSiftFields × InterpOutcome :=
  let aF := args.toList.map Arg.isArray
  let dF := args.toList.map Arg.isDummy
  let st1 := { st with arrayArgumentF := some aF, dummyArrayF := some dF }
  match prepareArguments args.toList with
  | .error e => (st1, ⟨.error e, [], [], []⟩)
  | .ok (shape, coll) =>
    let st2 := { st1 with inputShapeF := some shape, argumentCollectionF := some coll }
    if ¬ (mode = "PIE" ∨ mode = "CIE") then
      (st2, ⟨.error (invalidModeMsg mode), [], [], []⟩)
    else
      match ds.findAllBatches aF dF shape coll with
      | .error e => (st2, ⟨.error e, [], [], []⟩)
      | .ok batchIds =>
        match ds.interpPointsGo sqrtF scaling store cutL cutH batchIds aF dF coll
            (List.range shape.prod) with
        | .error e => (st2, ⟨.error e, batchIds, batchIds, []⟩)
        | .ok vals =>
          if dF.countP id = 4 ∨ aF.countP id = 0 then
            (st2, ⟨.ok (.single (vals.headD []), false), batchIds, batchIds, batchIds⟩)
          else
            (st2, ⟨.ok (.batch (shape ++ [(vals.headD []).length]) vals, true),
              batchIds, batchIds, batchIds⟩)

/-- `DataSift._interpolate` started from an object whose per-call fields have
never been set. -/
def DataSift.interpolate (ds : DataSift) (sqrtF : ℚ → ℚ)
    (store : ℤ → List (List ℚ)) (args : Args) (mode : String) (scaling : ℚ → ℚ)
    (cutL cutH : Option ℚ) : InterpOutcome :=
  (ds.interpolateCore sqrtF store args mode scaling cutL cutH ⟨none, none, none, none⟩).2

/-- Modelled from the spec: the spec's description of outlier suppression,
with each neighbor value more than two standard deviations from its column
mean replaced by zero in place (`(x - mean)^2 > 4 * variance` is the
rational form of `|x - mean| > 2 * std`). -/
def specZeroed (values : List (List ℚ)) (p : ℕ) (row : List ℚ) : ℚ :=
  if (row.getD p 0 - colMean values p) ^ 2 > 4 * colVar values p then 0
  else row.getD p 0

/-- Modelled from the spec: `(weights · values) / sum(weights)` at column
`p`, computed over all neighbors with each outlier's value replaced by zero
while its weight stays in the denominator. -/
def specEstimateCol (weights : List ℚ) (values : List (List ℚ)) (p : ℕ) : ℚ :=
  (List.zipWith (fun w row => w * specZeroed values p row) weights values).sum
    / weights.sum

/-- A one-cell grid (each axis has the single coordinate `0`, batch size 1)
used for concrete evaluations. -/
def dsEx : DataSift := ⟨[0], [0], [0], [0], 1⟩

/-- A backing store for `dsEx`: every batch holds the single row `[5]`. -/
def storeEx : ℤ → List (List ℚ) := fun _ => [[5]]

/-- A call in which every argument is a scalar or a length-1 dummy array:
`nH` is the dummy array `[0]`, the rest are scalars. -/
def argsMixEx : Args := ⟨.array [1] [0], .scalar 0, .scalar 0, .scalar 0⟩

/-- A call in which all four arguments are scalars. -/
def argsScalarEx : Args := ⟨.scalar 0, .scalar 0, .scalar 0, .scalar 0⟩

/-- A two-point nH axis with batch size 2, used to exhibit the off-by-one in
the in-batch row offset. -/
def dsC2 : DataSift := ⟨[0, 1], [0], [0], [0], 2⟩

/-- A call mixing a length-1 dummy array with a longer array: `nH` is the
dummy `[0]`, `temperature` is the 3-element array `[1, 2, 3]`, the rest are
scalars. -/
def argsC4 : Args := ⟨.array [1] [0], .array [3] [1, 2, 3], .scalar 0, .scalar 0⟩

section Lemmas

/-- The per-axis candidate list is never empty: it has three entries in the
exact-match case and two otherwise. -/
theorem identifyPosAxis_ne_nil (data : List ℚ) (q : ℚ) : identifyPosAxis data q ≠ [] := by
  unfold identifyPosAxis
  split <;> simp

/-- Every per-axis candidate is at least `-1`. -/
theorem mem_identifyPosAxis_ge (data : List ℚ) (q : ℚ) (x : ℤ)
    (hx : x ∈ identifyPosAxis data q) : -1 ≤ x := by
  unfold identifyPosAxis at hx
  split at hx <;> simp only [List.mem_cons, List.not_mem_nil, or_false] at hx <;> omega

/-- Every per-axis candidate is at most the axis length. -/
theorem mem_identifyPosAxis_le (data : List ℚ) (q : ℚ) (x : ℤ)
    (hx : x ∈ identifyPosAxis data q) : x ≤ (data.length : ℤ) := by
  unfold identifyPosAxis at hx
  split at hx
  · next hcount =>
    have hlt : data.findIdx (fun v => q == v) < data.length := by
      apply List.findIdx_lt_length_of_exists
      have hpos : 0 < data.countP (fun v => q == v) := by omega
      exact List.countP_pos_iff.mp hpos
    simp only [List.mem_cons, List.not_mem_nil, or_false] at hx
    omega
  · have hle : data.countP (fun v => decide (v < q)) ≤ data.length :=
      List.countP_le_length _
    simp only [List.mem_cons, List.not_mem_nil, or_false] at hx
    omega

/-- A candidate at least `-1` clamps to a nonnegative index. -/
theorem clampAxis_nonneg (len : ℕ) (x : ℤ) (hx : -1 ≤ x) : 0 ≤ (clampAxis len x).1 := by
  unfold clampAxis
  dsimp only
  split <;> split <;> omega

/-- On a nonempty axis, a candidate between `-1` and the axis length clamps
to an index strictly below the length. -/
theorem clampAxis_lt (len : ℕ) (x : ℤ) (hlen : 0 < len)
    (hx2 : x ≤ (len : ℤ)) : (clampAxis len x).1 < (len : ℤ) := by
  unfold clampAxis
  dsimp only
  split <;> split <;> omega

/-- Membership in the Cartesian product of the four candidate lists. -/
theorem mem_product4 (is js ks ms : List ℤ) (i j k m : ℤ) :
    (i, j, k, m) ∈ product4 is js ks ms ↔ i ∈ is ∧ j ∈ js ∧ k ∈ ks ∧ m ∈ ms := by
  unfold product4
  simp only [List.mem_flatMap, List.mem_map, Prod.mk.injEq]
  constructor
  · rintro ⟨i', hi, j', hj, k', hk, m', hm, rfl, rfl, rfl, rfl⟩
    exact ⟨hi, hj, hk, hm⟩
  · rintro ⟨hi, hj, hk, hm⟩
    exact ⟨i, hi, j, hj, k, hk, ⟨m, hm, rfl, rfl, rfl, rfl⟩⟩

/-- The product of four nonempty candidate lists is nonempty. -/
theorem product4_ne_nil (is js ks ms : List ℤ) (h1 : is ≠ []) (h2 : js ≠ [])
    (h3 : ks ≠ []) (h4 : ms ≠ []) : product4 is js ks ms ≠ [] := by
  rcases List.exists_mem_of_ne_nil is h1 with ⟨i, hi⟩
  rcases List.exists_mem_of_ne_nil js h2 with ⟨j, hj⟩
  rcases List.exists_mem_of_ne_nil ks h3 with ⟨k, hk⟩
  rcases List.exists_mem_of_ne_nil ms h4 with ⟨m, hm⟩
  intro hnil
  have : (i, j, k, m) ∈ product4 is js ks ms :=
    (mem_product4 is js ks ms i j k m).mpr ⟨hi, hj, hk, hm⟩
  simp [hnil] at this

/-- The clamped neighbor-cell list of a query point is never empty. -/
theorem neighborCellsClamped_ne_nil (ds : DataSift) (nH T Z red : ℚ) :
    ds.neighborCellsClamped nH T Z red ≠ [] := by
  unfold DataSift.neighborCellsClamped
  intro h
  rcases List.map_eq_nil_iff.mp h with hnil
  exact product4_ne_nil _ _ _ _ (identifyPosAxis_ne_nil _ _) (identifyPosAxis_ne_nil _ _)
    (identifyPosAxis_ne_nil _ _) (identifyPosAxis_ne_nil _ _) hnil

/-- Every component of a clamped neighbor cell is nonnegative. -/
theorem mem_neighborCells_nonneg (ds : DataSift) (nH T Z red : ℚ) (i j k m : ℤ)
    (hc : (i, j, k, m) ∈ ds.neighborCellsClamped nH T Z red) :
    0 ≤ i ∧ 0 ≤ j ∧ 0 ≤ k ∧ 0 ≤ m := by
  unfold DataSift.neighborCellsClamped at hc
  rcases List.mem_map.mp hc with ⟨c, hcmem, hceq⟩
  rcases c with ⟨i₀, j₀, k₀, m₀⟩
  rcases (mem_product4 _ _ _ _ i₀ j₀ k₀ m₀).mp hcmem with ⟨hi, hj, hk, hm⟩
  unfold DataSift.transformEdges at hceq
  simp only [Prod.mk.injEq] at hceq
  obtain ⟨h1, h2, h3, h4⟩ := hceq
  refine ⟨h1 ▸ ?_, h2 ▸ ?_, h3 ▸ ?_, h4 ▸ ?_⟩
  · exact clampAxis_nonneg _ _ (mem_identifyPosAxis_ge _ _ _ hi)
  · exact clampAxis_nonneg _ _ (mem_identifyPosAxis_ge _ _ _ hj)
  · exact clampAxis_nonneg _ _ (mem_identifyPosAxis_ge _ _ _ hk)
  · exact clampAxis_nonneg _ _ (mem_identifyPosAxis_ge _ _ _ hm)

/-- On nonempty axes, every component of a clamped neighbor cell is strictly
below its axis length. -/
theorem mem_neighborCells_lt (ds : DataSift) (nH T Z red : ℚ) (i j k m : ℤ)
    (hN : 0 < ds.nH_data.length) (hT : 0 < ds.T_data.length)
    (hZ : 0 < ds.Z_data.length) (hR : 0 < ds.red_data.length)
    (hc : (i, j, k, m) ∈ ds.neighborCellsClamped nH T Z red) :
    i < (ds.nH_data.length : ℤ) ∧ j < (ds.T_data.length : ℤ)
      ∧ k < (ds.Z_data.length : ℤ) ∧ m < (ds.red_data.length : ℤ) := by
  unfold DataSift.neighborCellsClamped at hc
  rcases List.mem_map.mp hc with ⟨c, hcmem, hceq⟩
  rcases c with ⟨i₀, j₀, k₀, m₀⟩
  rcases (mem_product4 _ _ _ _ i₀ j₀ k₀ m₀).mp hcmem with ⟨hi, hj, hk, hm⟩
  unfold DataSift.transformEdges at hceq
  simp only [Prod.mk.injEq] at hceq
  obtain ⟨h1, h2, h3, h4⟩ := hceq
  refine ⟨h1 ▸ ?_, h2 ▸ ?_, h3 ▸ ?_, h4 ▸ ?_⟩
  · exact clampAxis_lt _ _ hN (mem_identifyPosAxis_le _ _ _ hi)
  · exact clampAxis_lt _ _ hT (mem_identifyPosAxis_le _ _ _ hj)
  · exact clampAxis_lt _ _ hZ (mem_identifyPosAxis_le _ _ _ hk)
  · exact clampAxis_lt _ _ hR (mem_identifyPosAxis_le _ _ _ hm)

/-- The linear index of a cell with nonnegative components is nonnegative. -/
theorem getCounter_nonneg (ds : DataSift) (i j k m : ℤ) (hi : 0 ≤ i) (hj : 0 ≤ j)
    (hk : 0 ≤ k) (hm : 0 ≤ m) : 0 ≤ ds.getCounter i j k m := by
  unfold DataSift.getCounter
  positivity

/-- The linear index of an in-range cell is below the total grid size. -/
theorem getCounter_lt (ds : DataSift) (i j k m : ℤ)
    (hi : 0 ≤ i) (hj : 0 ≤ j) (hk : 0 ≤ k) (hm : 0 ≤ m)
    (hi2 : i < (ds.nH_data.length : ℤ)) (hj2 : j < (ds.T_data.length : ℤ))
    (hk2 : k < (ds.Z_data.length : ℤ)) (hm2 : m < (ds.red_data.length : ℤ)) :
    ds.getCounter i j k m
      < (ds.nH_data.length : ℤ) * ds.T_data.length * ds.Z_data.length
          * ds.red_data.length := by
  unfold DataSift.getCounter
  set N := (ds.nH_data.length : ℤ) with hNdef
  set T := (ds.T_data.length : ℤ) with hTdef
  set Z := (ds.Z_data.length : ℤ) with hZdef
  set R := (ds.red_data.length : ℤ) with hRdef
  have e1 : j * N ≤ (T - 1) * N := mul_le_mul_of_nonneg_right (by omega) (by omega)
  have e2 : k * (T * N) ≤ (Z - 1) * (T * N) :=
    mul_le_mul_of_nonneg_right (by omega) (mul_nonneg (by omega) (by omega))
  have e3 : m * (Z * (T * N)) ≤ (R - 1) * (Z * (T * N)) :=
    mul_le_mul_of_nonneg_right (by omega)
      (mul_nonneg (by omega) (mul_nonneg (by omega) (by omega)))
  nlinarith [e1, e2, e3]

/-- The row offset of `_interpolate` line 448 equals the linear index modulo
the batch size, minus one. -/
theorem localPos_eq (ds : DataSift) (i j k m : ℤ) :
    ds.localPos i j k m
      = ds.getCounter i j k m % (ds.batch_size : ℤ) - 1 := rfl

/-- With the numpy wrap-around of negative indices, the batch-file row
actually read for a cell is the one at index `(linear index - 1) mod
batch_size`. -/
theorem readRow_localPos (ds : DataSift) (i j k m : ℤ) (file : List (List ℚ))
    (hbs : 0 < ds.batch_size) (hfile : file.length = ds.batch_size) :
    readRow file (ds.localPos i j k m)
      = file.getD ((ds.getCounter i j k m - 1) % (ds.batch_size : ℤ)).toNat [] := by
  unfold readRow DataSift.localPos
  set c := ds.getCounter i j k m with hc
  have hbne : (ds.batch_size : ℤ) ≠ 0 := by omega
  have he1 : 0 ≤ c % (ds.batch_size : ℤ) := Int.emod_nonneg c hbne
  have he2 : c % (ds.batch_size : ℤ) < (ds.batch_size : ℤ) :=
    Int.emod_lt_of_pos c (by omega)
  have hsub : (c - 1) % (ds.batch_size : ℤ)
      = (c % (ds.batch_size : ℤ) - 1) % (ds.batch_size : ℤ) := by
    conv_lhs => rw [Int.sub_emod]
    conv_rhs => rw [Int.sub_emod, Int.emod_emod_of_dvd c dvd_rfl]
  by_cases h0 : c % (ds.batch_size : ℤ) = 0
  · have hneg : ¬ (0 ≤ c % (ds.batch_size : ℤ) - 1) := by omega
    rw [if_neg hneg, h0]
    have hval : (c - 1) % (ds.batch_size : ℤ) = (ds.batch_size : ℤ) - 1 := by
      rw [hsub, h0]
      calc (0 - 1) % (ds.batch_size : ℤ)
          = (0 - 1 + (ds.batch_size : ℤ) * 1) % (ds.batch_size : ℤ) := by
            rw [Int.add_mul_emod_self_left]
        _ = (ds.batch_size : ℤ) - 1 := by
            rw [Int.emod_eq_of_lt (by omega) (by omega)]
            omega
    rw [hval, hfile]
    norm_num
    have hidx : ((ds.batch_size : ℤ) + -1).toNat = ds.batch_size - 1 := by omega
    rw [hidx]
  · have hpos : 0 ≤ c % (ds.batch_size : ℤ) - 1 := by omega
    rw [if_pos hpos]
    have hval : (c - 1) % (ds.batch_size : ℤ) = c % (ds.batch_size : ℤ) - 1 := by
      rw [hsub, Int.emod_eq_of_lt (by omega) (by omega)]
    rw [hval]

/-- The batch id of every clamped neighbor cell is in the per-point batch
set. -/
theorem cellBatch_mem_findAllBatchesSingle (ds : DataSift) (nH T Z red : ℚ)
    (c : ℤ × ℤ × ℤ × ℤ) (hc : c ∈ ds.neighborCellsClamped nH T Z red) :
    ds.cellBatch c ∈ ds.findAllBatchesSingle nH T Z red := by
  unfold DataSift.findAllBatchesSingle
  rw [List.mem_dedup]
  exact List.mem_map_of_mem _ hc

/-- When the cell's batch id has an open handle, the loop body succeeds and
returns the cut row read at the cell's row offset. -/
theorem collectCell_ok (ds : DataSift) (sqrtF scaling : ℚ → ℚ)
    (store : ℤ → List (List ℚ)) (cutL cutH : Option ℚ) (opened : List ℤ)
    (nH T Z red : ℚ) (c : ℤ × ℤ × ℤ × ℤ) (hb : ds.cellBatch c ∈ opened) :
    ∃ w, ds.collectCell sqrtF scaling store cutL cutH opened nH T Z red c
      = .ok (w, applyCut cutL cutH
          (readRow (store (ds.cellBatch c)) (ds.localPos c.1 c.2.1 c.2.2.1 c.2.2.2))) := by
  rcases c with ⟨i, j, k, m⟩
  simp only [DataSift.collectCell, DataSift.cellBatch] at hb ⊢
  rw [if_pos hb]
  exact ⟨_, rfl⟩

/-- When every cell's batch id has an open handle, the neighbor-cell loop
succeeds, producing one weight and one row per cell, every row being the cut
row read from the store. -/
theorem collectCells_ok (ds : DataSift) (sqrtF scaling : ℚ → ℚ)
    (store : ℤ → List (List ℚ)) (cutL cutH : Option ℚ) (opened : List ℤ)
    (nH T Z red : ℚ) (cells : List (ℤ × ℤ × ℤ × ℤ))
    (hb : ∀ c ∈ cells, ds.cellBatch c ∈ opened) :
    ∃ ws vs, ds.collectCells sqrtF scaling store cutL cutH opened nH T Z red cells
        = .ok (ws, vs) ∧ ws.length = cells.length ∧ vs.length = cells.length
      ∧ ∀ v ∈ vs, ∃ c ∈ cells, v = applyCut cutL cutH
          (readRow (store (ds.cellBatch c)) (ds.localPos c.1 c.2.1 c.2.2.1 c.2.2.2)) := by
  induction cells with
  | nil => exact ⟨[], [], rfl, rfl, rfl, by simp⟩
  | cons c rest ih =>
    rcases collectCell_ok ds sqrtF scaling store cutL cutH opened nH T Z red c
      (hb c (List.mem_cons_self c rest)) with ⟨w, hcell⟩
    rcases ih (fun c' hc' => hb c' (List.mem_cons_of_mem c hc')) with
      ⟨ws, vs, hrest, hwl, hvl, hrows⟩
    refine ⟨w :: ws,
      applyCut cutL cutH
        (readRow (store (ds.cellBatch c)) (ds.localPos c.1 c.2.1 c.2.2.1 c.2.2.2)) :: vs,
      ?_, by simp [hwl], by simp [hvl], ?_⟩
    · unfold DataSift.collectCells
      rw [hcell, hrest]
    · intro v hv
      rcases List.mem_cons.mp hv with hveq | hvmem
      · exact ⟨c, List.mem_cons_self c rest, hveq⟩
      · rcases hrows v hvmem with ⟨c', hc', hveq⟩
        exact ⟨c', List.mem_cons_of_mem c hc', hveq⟩

/-- `applyCut` preserves the length of a row. -/
theorem applyCut_length (cutL cutH : Option ℚ) (v : List ℚ) :
    (applyCut cutL cutH v).length = v.length := by
  unfold applyCut
  rcases cutL with _ | c <;> rcases cutH with _ | c' <;> simp

/-- Reading a row of a well-formed batch file at the offset of `_interpolate`
line 448 yields a row of the file. -/
theorem readRow_mem (ds : DataSift) (i j k m : ℤ) (file : List (List ℚ))
    (hbs : 0 < ds.batch_size) (hfile : file.length = ds.batch_size) :
    readRow file (ds.localPos i j k m) ∈ file := by
  rw [readRow_localPos ds i j k m file hbs hfile]
  have hbne : (ds.batch_size : ℤ) ≠ 0 := by omega
  have he1 : 0 ≤ (ds.getCounter i j k m - 1) % (ds.batch_size : ℤ) :=
    Int.emod_nonneg _ hbne
  have he2 : (ds.getCounter i j k m - 1) % (ds.batch_size : ℤ) < (ds.batch_size : ℤ) :=
    Int.emod_lt_of_pos _ (by omega)
  have hidx : ((ds.getCounter i j k m - 1) % (ds.batch_size : ℤ)).toNat < file.length := by
    omega
  rw [List.getD_eq_getElem file [] hidx]
  exact List.getElem_mem hidx

/-- The outlier-filtered matrix of a nonempty rectangular matrix has a first
row of the same length. -/
theorem filterOutliers_headD_length (values : List (List ℚ)) (P : ℕ)
    (hne : values ≠ []) (hP : ∀ v ∈ values, v.length = P) :
    ((filterOutliers values).headD []).length = P := by
  rcases values with _ | ⟨v0, rest⟩
  · exact absurd rfl hne
  · simp only [filterOutliers, List.map_cons, List.headD_cons, List.length_map,
      List.length_range]
    exact hP v0 (List.mem_cons_self v0 rest)

/-- The combined estimate of a nonempty rectangular value matrix is a vector
of the common row length. -/
theorem combineEstimate_length (weights : List ℚ) (values : List (List ℚ)) (P : ℕ)
    (hne : values ≠ []) (hP : ∀ v ∈ values, v.length = P) :
    (combineEstimate weights values).length = P := by
  unfold combineEstimate
  simp only [List.length_map, List.length_range]
  exact filterOutliers_headD_length values P hne hP

/-- When every neighbor cell's batch id has an open handle and the store is
well-formed, the per-point estimate succeeds and has the property-vector
length. -/
theorem pointEstimate_ok (ds : DataSift) (sqrtF scaling : ℚ → ℚ)
    (store : ℤ → List (List ℚ)) (cutL cutH : Option ℚ) (opened : List ℤ)
    (nH T Z red : ℚ)
    (hb : ∀ c ∈ ds.neighborCellsClamped nH T Z red, ds.cellBatch c ∈ opened) :
    ∃ v, ds.pointEstimate sqrtF scaling store cutL cutH opened nH T Z red = .ok v
      ∧ ∀ P : ℕ, 0 < ds.batch_size → (∀ b, (store b).length = ds.batch_size) →
          (∀ b, ∀ r ∈ store b, r.length = P) → v.length = P := by
  rcases collectCells_ok ds sqrtF scaling store cutL cutH opened nH T Z red
    (ds.neighborCellsClamped nH T Z red) hb with ⟨ws, vs, hcells, hwl, hvl, hrows⟩
  have hvne : vs ≠ [] := by
    have := neighborCellsClamped_ne_nil ds nH T Z red
    intro hnil
    rw [hnil] at hvl
    exact this (List.length_eq_zero.mp hvl.symm)
  refine ⟨combineEstimate ws vs, ?_, ?_⟩
  · unfold DataSift.pointEstimate
    rw [hcells]
  · intro P hbs hstore hrow
    have hvP : ∀ v ∈ vs, v.length = P := by
      intro v hv
      rcases hrows v hv with ⟨c, _, hveq⟩
      rw [hveq, applyCut_length]
      exact hrow _ _ (readRow_mem ds c.1 c.2.1 c.2.2.1 c.2.2.2 _ hbs (hstore _))
    exact combineEstimate_length ws vs P hvne hvP

/-- When every needed batch id is among the opened handles, the whole
per-point loop succeeds, producing one estimate per flat index; when the
store is well-formed every estimate has the property-vector length. -/
theorem interpPointsGo_ok (ds : DataSift) (sqrtF scaling : ℚ → ℚ)
    (store : ℤ → List (List ℚ)) (cutL cutH : Option ℚ) (opened : List ℤ)
    (aF dF : List Bool) (coll : List (List ℚ)) (idxs : List ℕ)
    (hb : ∀ indx ∈ idxs, ∀ c ∈ ds.neighborCellsClamped
        (selectArg (aF.getD 0 false) (dF.getD 0 false) (coll.getD 0 []) indx)
        (selectArg (aF.getD 1 false) (dF.getD 1 false) (coll.getD 1 []) indx)
        (selectArg (aF.getD 2 false) (dF.getD 2 false) (coll.getD 2 []) indx)
        (selectArg (aF.getD 3 false) (dF.getD 3 false) (coll.getD 3 []) indx),
      ds.cellBatch c ∈ opened) :
    ∃ vals, ds.interpPointsGo sqrtF scaling store cutL cutH opened aF dF coll idxs
        = .ok vals
      ∧ vals.length = idxs.length
      ∧ ∀ P : ℕ, 0 < ds.batch_size → (∀ b, (store b).length = ds.batch_size) →
          (∀ b, ∀ r ∈ store b, r.length = P) → ∀ r ∈ vals, r.length = P := by
  induction idxs with
  | nil => exact ⟨[], rfl, rfl, by simp⟩
  | cons indx rest ih =>
    rcases pointEstimate_ok ds sqrtF scaling store cutL cutH opened _ _ _ _
      (hb indx (List.mem_cons_self indx rest)) with ⟨v, hpt, hlen⟩
    rcases ih (fun i hi => hb i (List.mem_cons_of_mem indx hi)) with
      ⟨vals, hrest, hvl, hvP⟩
    refine ⟨v :: vals, ?_, by simp [hvl], ?_⟩
    · unfold DataSift.interpPointsGo
      rw [hpt, hrest]
    · intro P hbs hstore hrow r hr
      rcases List.mem_cons.mp hr with rfl | hrmem
      · exact hlen P hbs hstore hrow
      · exact hvP P hbs hstore hrow r hrmem

/-- The invalid-mode message differs from the missing-handle message. -/
theorem invalidModeMsg_ne_missing (m : String) : invalidModeMsg m ≠ missingBatchMsg := by
  intro h
  have hd := congrArg String.data h
  simp [invalidModeMsg, missingBatchMsg, String.data_append] at hd

/-- The invalid-mode message differs from the empty-batch-set message. -/
theorem invalidModeMsg_ne_noBatches (m : String) : invalidModeMsg m ≠ noBatchesMsg := by
  intro h
  have hd := congrArg String.data h
  simp [invalidModeMsg, noBatchesMsg, String.data_append] at hd

/-- The invalid-mode message differs from the invalid-arguments message. -/
theorem invalidModeMsg_ne_invalidArgs (m : String) : invalidModeMsg m ≠ invalidArgsMsg := by
  intro h
  have hd := congrArg String.data h
  simp [invalidModeMsg, invalidArgsMsg, String.data_append] at hd

/-- The only error `foldShape` raises is the invalid-arguments message. -/
theorem foldShape_error_msg (argsL : List Arg) (acc : Option (List ℕ)) (e : String)
    (h : foldShape acc argsL = .error e) : e = invalidArgsMsg := by
  induction argsL generalizing acc with
  | nil => simp [foldShape] at h
  | cons a rest ih =>
    unfold foldShape at h
    cases hstep : prepStep acc a with
    | error e' =>
      rw [hstep] at h
      unfold prepStep at hstep
      split at hstep
      · cases acc with
        | none => simp at hstep
        | some s =>
          simp only at hstep
          split at hstep
          · simp at hstep
          · cases h
            cases hstep
            rfl
      · simp at hstep
    | ok acc2 =>
      rw [hstep] at h
      exact ih acc2 h

/-- The only error `_prepare_arguments` raises is the invalid-arguments
message. -/
theorem prepareArguments_error_msg (argsL : List Arg) (e : String)
    (h : prepareArguments argsL = .error e) : e = invalidArgsMsg := by
  unfold prepareArguments at h
  cases hf : foldShape none argsL with
  | error e' =>
    rw [hf] at h
    cases h
    exact foldShape_error_msg argsL none e hf
  | ok acc =>
    rw [hf] at h
    dsimp only at h
    cases hacc : (if argsL.countP Arg.isDummy = 4 ∨ argsL.countP Arg.isArray = 0 then
        some [1] else acc) with
    | some s =>
      rw [hacc] at h
      simp at h
    | none =>
      rw [hacc] at h
      cases h
      rfl

/-- The only error `_find_all_batches` raises is the empty-batch-set
message. -/
theorem findAllBatches_error_msg (ds : DataSift) (aF dF : List Bool) (shape : List ℕ)
    (coll : List (List ℚ)) (e : String)
    (h : ds.findAllBatches aF dF shape coll = .error e) : e = noBatchesMsg := by
  unfold DataSift.findAllBatches at h
  split at h
  · simp at h
  · dsimp only at h
    split at h
    · cases h
      rfl
    · simp at h

/-- Everything in the initial accumulator, and everything contributed by any
list element, is in a left fold of list unions. -/
theorem mem_foldl_union (f : ℕ → List ℤ) (l : List ℕ) (init : List ℤ) :
    (∀ x ∈ init, x ∈ l.foldl (fun acc i => acc.union (f i)) init)
      ∧ ∀ i ∈ l, ∀ x ∈ f i, x ∈ l.foldl (fun acc i => acc.union (f i)) init := by
  induction l generalizing init with
  | nil => exact ⟨fun x hx => hx, by simp⟩
  | cons a rest ih =>
    constructor
    · intro x hx
      simp only [List.foldl_cons]
      exact (ih (init.union (f a))).1 x (List.mem_union_iff.mpr (Or.inl hx))
    · intro i hi x hx
      simp only [List.foldl_cons]
      rcases List.mem_cons.mp hi with rfl | hrest
      · exact (ih (init.union (f i))).1 x (List.mem_union_iff.mpr (Or.inr hx))
      · exact (ih (init.union (f a))).2 i hrest x hx

/-- The per-point batch set of a query point is never empty. -/
theorem findAllBatchesSingle_ne_nil (ds : DataSift) (nH T Z red : ℚ) :
    ds.findAllBatchesSingle nH T Z red ≠ [] := by
  have hcells := neighborCellsClamped_ne_nil ds nH T Z red
  rcases List.exists_mem_of_ne_nil _ hcells with ⟨c, hc⟩
  intro hnil
  have := cellBatch_mem_findAllBatchesSingle ds nH T Z red c hc
  simp [hnil] at this

/-- When the flag lists have four entries and the flat-index range is
nonempty, `_find_all_batches` succeeds. -/
theorem findAllBatches_ok (ds : DataSift) (aF dF : List Bool) (shape : List ℕ)
    (coll : List (List ℚ)) (hsp : 0 < shape.prod) :
    ∃ ids, ds.findAllBatches aF dF shape coll = .ok ids := by
  unfold DataSift.findAllBatches
  split
  · exact ⟨_, rfl⟩
  · dsimp only
    split
    · next hall =>
      exfalso
      have h0 : 0 ∈ List.range shape.prod := List.mem_range.mpr hsp
      rcases List.exists_mem_of_ne_nil _
        (findAllBatchesSingle_ne_nil ds
          (selectArg (aF.getD 0 false) (dF.getD 0 false) (coll.getD 0 []) 0)
          (selectArg (aF.getD 1 false) (dF.getD 1 false) (coll.getD 1 []) 0)
          (selectArg (aF.getD 2 false) (dF.getD 2 false) (coll.getD 2 []) 0)
          (selectArg (aF.getD 3 false) (dF.getD 3 false) (coll.getD 3 []) 0)) with ⟨b, hb⟩
      have hmem := (mem_foldl_union
        (fun indx => ds.findAllBatchesSingle
          (selectArg (aF.getD 0 false) (dF.getD 0 false) (coll.getD 0 []) indx)
          (selectArg (aF.getD 1 false) (dF.getD 1 false) (coll.getD 1 []) indx)
          (selectArg (aF.getD 2 false) (dF.getD 2 false) (coll.getD 2 []) indx)
          (selectArg (aF.getD 3 false) (dF.getD 3 false) (coll.getD 3 []) indx))
        (List.range shape.prod) []).2 0 h0 b hb
      rw [hall] at hmem
      simp at hmem
    · exact ⟨_, rfl⟩

/-- Every batch id needed while interpolating the point at flat index `indx`
is among the ids resolved by `_find_all_batches`. -/
theorem findAllBatches_mem (ds : DataSift) (aF dF : List Bool) (shape : List ℕ)
    (coll : List (List ℚ)) (ids : List ℤ) (indx : ℕ)
    (h4a : aF.length = 4) (h4d : dF.length = 4)
    (h : ds.findAllBatches aF dF shape coll = .ok ids) (hindx : indx < shape.prod) :
    ∀ b ∈ ds.findAllBatchesSingle
        (selectArg (aF.getD 0 false) (dF.getD 0 false) (coll.getD 0 []) indx)
        (selectArg (aF.getD 1 false) (dF.getD 1 false) (coll.getD 1 []) indx)
        (selectArg (aF.getD 2 false) (dF.getD 2 false) (coll.getD 2 []) indx)
        (selectArg (aF.getD 3 false) (dF.getD 3 false) (coll.getD 3 []) indx),
      b ∈ ids := by
  intro b hb
  unfold DataSift.findAllBatches at h
  split at h
  · next hcond =>
    have hsel : ∀ p : ℕ, p < 4 →
        (dF.getD p false || !(aF.getD p false)) = true := by
      intro p hp
      rcases hcond with hdum | harr
      · have hall : ∀ x ∈ dF, id x = true := List.countP_eq_length.mp (by rw [hdum, h4d])
        have hget : dF.getD p false = true := by
          have hlt : p < dF.length := by omega
          rw [List.getD_eq_getElem dF false hlt]
          exact hall _ (List.getElem_mem hlt)
        rw [hget, Bool.true_or]
      · have hall : ∀ x ∈ aF, ¬ (id x = true) := List.countP_eq_zero.mp harr
        have hget : aF.getD p false = false := by
          have hlt : p < aF.length := by omega
          rw [List.getD_eq_getElem aF false hlt]
          have hmem := hall _ (List.getElem_mem hlt)
          simpa using hmem
        rw [hget, Bool.not_false, Bool.or_true]
    have hsel' : ∀ p : ℕ, p < 4 →
        selectArg (aF.getD p false) (dF.getD p false) (coll.getD p []) indx
          = (coll.getD p []).getD 0 0 := by
      intro p hp
      unfold selectArg
      rw [if_pos (hsel p hp)]
    rw [hsel' 0 (by omega), hsel' 1 (by omega), hsel' 2 (by omega),
      hsel' 3 (by omega)] at hb
    cases h
    exact hb
  · dsimp only at h
    split at h
    · simp at h
    · cases h
      exact (mem_foldl_union
        (fun indx => ds.findAllBatchesSingle
          (selectArg (aF.getD 0 false) (dF.getD 0 false) (coll.getD 0 []) indx)
          (selectArg (aF.getD 1 false) (dF.getD 1 false) (coll.getD 1 []) indx)
          (selectArg (aF.getD 2 false) (dF.getD 2 false) (coll.getD 2 []) indx)
          (selectArg (aF.getD 3 false) (dF.getD 3 false) (coll.getD 3 []) indx))
        (List.range shape.prod) []).2 indx (List.mem_range.mpr hindx) b hb

/-- A call whose argument normalization fails stores the flags, raises the
normalization error, and performs no download and no handle activity. -/
theorem interpolateCore_prepare_error (ds : DataSift) (sqrtF : ℚ → ℚ)
    (store : ℤ → List (List ℚ)) (args : Args) (mode : String) (scaling : ℚ → ℚ)
    (cutL cutH : Option ℚ) (st : DataSiftFields) (e : String)
    (hp : prepareArguments args.toList = .error e) :
    ds.interpolateCore sqrtF store args mode scaling cutL cutH st
      = ({ st with
            arrayArgumentF := some (args.toList.map Arg.isArray)
            dummyArrayF := some (args.toList.map Arg.isDummy) },
          ⟨.error e, [], [], []⟩) := by
  unfold DataSift.interpolateCore
  rw [hp]

/-- A call with an invalid mode (after successful normalization) raises the
invalid-mode error and performs no batch resolution, download, or handle
activity. -/
theorem interpolateCore_mode_error (ds : DataSift) (sqrtF : ℚ → ℚ)
    (store : ℤ → List (List ℚ)) (args : Args) (mode : String) (scaling : ℚ → ℚ)
    (cutL cutH : Option ℚ) (st : DataSiftFields) (shape : List ℕ)
    (coll : List (List ℚ))
    (hp : prepareArguments args.toList = .ok (shape, coll))
    (hm : ¬ (mode = "PIE" ∨ mode = "CIE")) :
    ds.interpolateCore sqrtF store args mode scaling cutL cutH st
      = (⟨some (args.toList.map Arg.isArray), some (args.toList.map Arg.isDummy),
            some shape, some coll⟩,
          ⟨.error (invalidModeMsg mode), [], [], []⟩) := by
  unfold DataSift.interpolateCore
  rw [hp]
  simp only [if_pos hm]

/-- A call for which batch resolution fails raises that error with no
download and no handle activity. -/
theorem interpolateCore_batches_error (ds : DataSift) (sqrtF : ℚ → ℚ)
    (store : ℤ → List (List ℚ)) (args : Args) (mode : String) (scaling : ℚ → ℚ)
    (cutL cutH : Option ℚ) (st : DataSiftFields) (shape : List ℕ)
    (coll : List (List ℚ)) (e : String)
    (hp : prepareArguments args.toList = .ok (shape, coll))
    (hm : mode = "PIE" ∨ mode = "CIE")
    (hbe : ds.findAllBatches (args.toList.map Arg.isArray)
        (args.toList.map Arg.isDummy) shape coll = .error e) :
    ds.interpolateCore sqrtF store args mode scaling cutL cutH st
      = (⟨some (args.toList.map Arg.isArray), some (args.toList.map Arg.isDummy),
            some shape, some coll⟩,
          ⟨.error e, [], [], []⟩) := by
  unfold DataSift.interpolateCore
  rw [hp]
  simp only [if_neg (not_not_intro hm)]
  rw [hbe]

/-- A call that resolves its batches never hits the missing-handle error:
the per-point loop succeeds, one estimate per flat index, and all opened
handles are closed; the single/batch result follows the all-dummy or
no-array condition. -/
theorem interpolateCore_run_ok (ds : DataSift) (sqrtF : ℚ → ℚ)
    (store : ℤ → List (List ℚ)) (args : Args) (mode : String) (scaling : ℚ → ℚ)
    (cutL cutH : Option ℚ) (st : DataSiftFields) (shape : List ℕ)
    (coll : List (List ℚ)) (ids : List ℤ)
    (hp : prepareArguments args.toList = .ok (shape, coll))
    (hm : mode = "PIE" ∨ mode = "CIE")
    (hids : ds.findAllBatches (args.toList.map Arg.isArray)
        (args.toList.map Arg.isDummy) shape coll = .ok ids) :
    ∃ vals,
      ds.interpPointsGo sqrtF scaling store cutL cutH ids
          (args.toList.map Arg.isArray) (args.toList.map Arg.isDummy) coll
          (List.range shape.prod) = .ok vals
      ∧ vals.length = shape.prod
      ∧ (∀ P : ℕ, 0 < ds.batch_size → (∀ b, (store b).length = ds.batch_size) →
          (∀ b, ∀ r ∈ store b, r.length = P) → ∀ r ∈ vals, r.length = P)
      ∧ ds.interpolateCore sqrtF store args mode scaling cutL cutH st
          = (⟨some (args.toList.map Arg.isArray), some (args.toList.map Arg.isDummy),
                some shape, some coll⟩,
              ⟨.ok (if (args.toList.map Arg.isDummy).countP id = 4
                      ∨ (args.toList.map Arg.isArray).countP id = 0
                    then (.single (vals.headD []), false)
                    else (.batch (shape ++ [(vals.headD []).length]) vals, true)),
                ids, ids, ids⟩) := by
  have hb : ∀ indx ∈ List.range shape.prod, ∀ c ∈ ds.neighborCellsClamped
      (selectArg ((args.toList.map Arg.isArray).getD 0 false)
        ((args.toList.map Arg.isDummy).getD 0 false) (coll.getD 0 []) indx)
      (selectArg ((args.toList.map Arg.isArray).getD 1 false)
        ((args.toList.map Arg.isDummy).getD 1 false) (coll.getD 1 []) indx)
      (selectArg ((args.toList.map Arg.isArray).getD 2 false)
        ((args.toList.map Arg.isDummy).getD 2 false) (coll.getD 2 []) indx)
      (selectArg ((args.toList.map Arg.isArray).getD 3 false)
        ((args.toList.map Arg.isDummy).getD 3 false) (coll.getD 3 []) indx),
      ds.cellBatch c ∈ ids := by
    intro indx hindx c hc
    exact findAllBatches_mem ds _ _ shape coll ids indx
      (by simp [Args.toList]) (by simp [Args.toList]) hids (List.mem_range.mp hindx)
      (ds.cellBatch c) (cellBatch_mem_findAllBatchesSingle ds _ _ _ _ c hc)
  rcases interpPointsGo_ok ds sqrtF scaling store cutL cutH ids
    (args.toList.map Arg.isArray) (args.toList.map Arg.isDummy) coll
    (List.range shape.prod) hb with ⟨vals, hgo, hvl, hvP⟩
  refine ⟨vals, hgo, by simpa using hvl, hvP, ?_⟩
  unfold DataSift.interpolateCore
  rw [hp]
  simp only [if_neg (not_not_intro hm), hids, hgo]
  split <;> rfl

/-- `np.where` returns the index of the unique element satisfying the
predicate when the count of satisfying elements is one. -/
theorem findIdx_eq_of_countP_one {α : Type} (p : α → Bool) (l : List α) (e : ℕ) (a : α)
    (h1 : l.countP p = 1) (h2 : l.get? e = some a) (h3 : p a = true) :
    l.findIdx p = e := by
  induction l generalizing e with
  | nil => simp at h2
  | cons x xs ih =>
    cases e with
    | zero =>
      simp only [List.get?] at h2
      cases h2
      rw [List.findIdx_cons, h3]
      rfl
    | succ n =>
      simp only [List.get?] at h2
      have hmem : a ∈ xs := List.get?_mem h2
      have hpos : 0 < xs.countP p := List.countP_pos_iff.mpr ⟨a, hmem, h3⟩
      have hpx : p x = false := by
        cases hx : p x
        · rfl
        · exfalso
          rw [List.countP_cons, hx, if_pos rfl] at h1
          omega
      have hxs : xs.countP p = 1 := by
        rw [List.countP_cons, hpx] at h1
        simpa using h1
      rw [List.findIdx_cons, hpx]
      simp only [cond_false]
      rw [ih n hxs h2]

/-- The shape fold starting from a fixed shape succeeds exactly when every
array argument matches that shape. -/
theorem foldShape_some_iff (argsL : List Arg) (s : List ℕ) :
    (∃ r, foldShape (some s) argsL = .ok r)
      ↔ ∀ a ∈ argsL, a.isArray = true → a.shape = s := by
  induction argsL with
  | nil => simp [foldShape]
  | cons a rest ih =>
    unfold foldShape prepStep
    cases ha : a.isArray with
    | false =>
      simp only [Bool.false_eq_true, if_false]
      rw [ih]
      constructor
      · intro h b hb hbarr
        rcases List.mem_cons.mp hb with rfl | hbr
        · rw [ha] at hbarr
          exact absurd hbarr (by simp)
        · exact h b hbr hbarr
      · intro h b hb hbarr
        exact h b (List.mem_cons_of_mem a hb) hbarr
    | true =>
      simp only [if_true]
      by_cases hsh : s = a.shape
      · rw [if_pos hsh]
        simp only
        rw [ih]
        constructor
        · intro h b hb hbarr
          rcases List.mem_cons.mp hb with rfl | hbr
          · exact hsh.symm
          · exact h b hbr hbarr
        · intro h b hb hbarr
          exact h b (List.mem_cons_of_mem a hb) hbarr
      · rw [if_neg hsh]
        simp only
        constructor
        · rintro ⟨r, hr⟩
          simp at hr
        · intro h
          exact absurd (h a (List.mem_cons_self a rest) ha).symm hsh

/-- The shape fold starting from no shape succeeds exactly when all array
arguments share one shape. -/
theorem foldShape_none_iff (argsL : List Arg) :
    (∃ r, foldShape none argsL = .ok r)
      ↔ ∀ a ∈ argsL, ∀ b ∈ argsL, a.isArray = true → b.isArray = true →
          a.shape = b.shape := by
  induction argsL with
  | nil => simp [foldShape]
  | cons a rest ih =>
    unfold foldShape prepStep
    cases ha : a.isArray with
    | false =>
      simp only [Bool.false_eq_true, if_false]
      rw [ih]
      constructor
      · intro h b hb c hc hbarr hcarr
        rcases List.mem_cons.mp hb with rfl | hbr
        · rw [ha] at hbarr
          exact absurd hbarr (by simp)
        rcases List.mem_cons.mp hc with rfl | hcr
        · rw [ha] at hcarr
          exact absurd hcarr (by simp)
        exact h b hbr c hcr hbarr hcarr
      · intro h b hb c hc hbarr hcarr
        exact h b (List.mem_cons_of_mem a hb) c (List.mem_cons_of_mem a hc) hbarr hcarr
    | true =>
      simp only [if_true]
      rw [foldShape_some_iff]
      constructor
      · intro h b hb c hc hbarr hcarr
        have hb' : b.shape = a.shape := by
          rcases List.mem_cons.mp hb with rfl | hbr
          · rfl
          · exact h b hbr hbarr
        have hc' : c.shape = a.shape := by
          rcases List.mem_cons.mp hc with rfl | hcr
          · rfl
          · exact h c hcr hcarr
        rw [hb', hc']
      · intro h b hb hbarr
        exact h b (List.mem_cons_of_mem a hb) a (List.mem_cons_self a rest) hbarr ha

/-- The shape fold never forgets a shape it has fixed. -/
theorem foldShape_some_preserves (argsL : List Arg) (s : List ℕ) (r : Option (List ℕ))
    (h : foldShape (some s) argsL = .ok r) : ∃ t, r = some t := by
  induction argsL generalizing s with
  | nil =>
    cases h
    exact ⟨s, rfl⟩
  | cons a rest ih =>
    unfold foldShape prepStep at h
    cases ha : a.isArray with
    | false =>
      rw [ha] at h
      simp only [Bool.false_eq_true, if_false] at h
      exact ih s h
    | true =>
      rw [ha] at h
      simp only [if_true] at h
      by_cases hsh : s = a.shape
      · rw [if_pos hsh] at h
        exact ih s h
      · rw [if_neg hsh] at h
        simp at h
/-- A shape fold from no shape that ends with no shape saw no array
argument. -/
theorem foldShape_ok_none (argsL : List Arg) (h : foldShape none argsL = .ok none) :
    argsL.countP Arg.isArray = 0 := by
  induction argsL with
  | nil => rfl
  | cons a rest ih =>
    unfold foldShape prepStep at h
    cases ha : a.isArray with
    | false =>
      rw [ha] at h
      simp only [Bool.false_eq_true, if_false] at h
      rw [List.countP_cons, ha]
      simpa using ih h
    | true =>
      rw [ha] at h
      simp only [if_true] at h
      rcases foldShape_some_preserves rest a.shape none h with ⟨t, ht⟩
      simp at ht

/-- `_prepare_arguments` succeeds exactly when all array-valued arguments
(dummy arrays included) share one shape. -/
theorem prepareArguments_ok_iff (argsL : List Arg) :
    (∃ r, prepareArguments argsL = .ok r)
      ↔ ∀ a ∈ argsL, ∀ b ∈ argsL, a.isArray = true → b.isArray = true →
          a.shape = b.shape := by
  rw [← foldShape_none_iff]
  constructor
  · rintro ⟨r, hr⟩
    unfold prepareArguments at hr
    cases hf : foldShape none argsL with
    | error e =>
      rw [hf] at hr
      simp at hr
    | ok acc => exact ⟨acc, rfl⟩
  · rintro ⟨acc, hacc⟩
    unfold prepareArguments
    rw [hacc]
    dsimp only
    cases hacc2 : (if argsL.countP Arg.isDummy = 4 ∨ argsL.countP Arg.isArray = 0 then
        some [1] else acc) with
    | some s => exact ⟨_, rfl⟩
    | none =>
      exfalso
      split at hacc2
      · simp at hacc2
      · next hcond =>
        cases hacc2
        exact hcond (Or.inr (foldShape_ok_none argsL hacc))

/-- The single-result condition of `_interpolate` lines 408/477 in terms of
the four arguments: all four are dummy arrays, or none is an array. -/
theorem countP_cond_iff (args : Args) :
    ((args.toList.map Arg.isDummy).countP id = 4
        ∨ (args.toList.map Arg.isArray).countP id = 0)
      ↔ ((∀ a ∈ args.toList, a.isDummy = true) ∨ (∀ a ∈ args.toList, a.isArray = false)) := by
  rw [List.countP_map, List.countP_map]
  constructor
  · rintro (h | h)
    · left
      intro a ha
      have hall : ∀ a ∈ args.toList, (id ∘ Arg.isDummy) a = true :=
        List.countP_eq_length.mp (by rw [h]; rfl)
      simpa using hall a ha
    · right
      intro a ha
      have hall := List.countP_eq_zero.mp h a ha
      simpa using hall
  · rintro (h | h)
    · left
      have hlen : (args.toList).length = 4 := rfl
      rw [← hlen]
      exact List.countP_eq_length.mpr (fun a ha => by simpa using h a ha)
    · right
      exact List.countP_eq_zero.mpr (fun a ha => by simpa using h a ha)

/-- Case split on an `Except` value that keeps the scrutinee folded in the
resulting equations. -/
theorem except_cases {ε α : Type} (x : Except ε α) :
    (∃ a, x = .ok a) ∨ (∃ e, x = .error e) := by
  cases x with
  | error e => exact Or.inr ⟨e, rfl⟩
  | ok a => exact Or.inl ⟨a, rfl⟩

/-- After every call, the argument flags are stored on the object, and after
every call whose normalization succeeds, the input shape and flattened
argument collection are stored as well. -/
theorem interpolateCore_state (ds : DataSift) (sqrtF : ℚ → ℚ)
    (store : ℤ → List (List ℚ)) (args : Args) (mode : String) (scaling : ℚ → ℚ)
    (cutL cutH : Option ℚ) (st : DataSiftFields) :
    ((ds.interpolateCore sqrtF store args mode scaling cutL cutH st).1.arrayArgumentF
        = some (args.toList.map Arg.isArray))
    ∧ ((ds.interpolateCore sqrtF store args mode scaling cutL cutH st).1.dummyArrayF
        = some (args.toList.map Arg.isDummy))
    ∧ ∀ shape coll, prepareArguments args.toList = .ok (shape, coll) →
        (ds.interpolateCore sqrtF store args mode scaling cutL cutH st).1
          = ⟨some (args.toList.map Arg.isArray), some (args.toList.map Arg.isDummy),
              some shape, some coll⟩ := by
  rcases except_cases (prepareArguments args.toList) with ⟨⟨shape, coll⟩, hp⟩ | ⟨e, hp⟩
  · by_cases hm : mode = "PIE" ∨ mode = "CIE"
    · rcases except_cases (ds.findAllBatches (args.toList.map Arg.isArray)
          (args.toList.map Arg.isDummy) shape coll) with ⟨ids, hids⟩ | ⟨e, hids⟩
      · rcases interpolateCore_run_ok ds sqrtF store args mode scaling cutL cutH st
          shape coll ids hp hm hids with ⟨vals, _, _, _, hcore⟩
        rw [hcore]
        refine ⟨rfl, rfl, ?_⟩
        intro shape' coll' hok
        rw [hp] at hok
        obtain ⟨h1, h2⟩ := by simpa using hok
        rw [h1, h2]
      · rw [interpolateCore_batches_error ds sqrtF store args mode scaling cutL cutH st
          shape coll e hp hm hids]
        refine ⟨rfl, rfl, ?_⟩
        intro shape' coll' hok
        rw [hp] at hok
        obtain ⟨h1, h2⟩ := by simpa using hok
        rw [h1, h2]
    · rw [interpolateCore_mode_error ds sqrtF store args mode scaling cutL cutH st
        shape coll hp hm]
      refine ⟨rfl, rfl, ?_⟩
      intro shape' coll' hok
      rw [hp] at hok
      obtain ⟨h1, h2⟩ := by simpa using hok
      rw [h1, h2]
  · rw [interpolateCore_prepare_error ds sqrtF store args mode scaling cutL cutH st e hp]
    refine ⟨rfl, rfl, ?_⟩
    intro shape coll hok
    rw [hp] at hok
    cases hok

/-- A `zipWith` over a common second list is determined by the function's
values on the members of that list. -/
theorem zipWith_congr_mem {α β γ : Type} (f g : α → β → γ) :
    ∀ (ws : List α) (vs : List β), (∀ v ∈ vs, ∀ w, f w v = g w v) →
      List.zipWith f ws vs = List.zipWith g ws vs := by
  intro ws
  induction ws with
  | nil => intro vs h; rfl
  | cons w ws ih =>
    intro vs h
    cases vs with
    | nil => rfl
    | cons v vs =>
      simp only [List.zipWith_cons_cons]
      rw [h v (List.mem_cons_self v vs) w,
        ih vs (fun v' hv' w' => h v' (List.mem_cons_of_mem v hv') w')]

/-- The entry of an outlier-filtered row at an in-range column: zero when the
original entry deviates from the column mean by more than two standard
deviations, the original entry otherwise. -/
theorem filterOutliers_row_getD (values : List (List ℚ)) (row : List ℚ) (p : ℕ)
    (hp : p < row.length) :
    ((List.range row.length).map fun p' =>
        if isOutlier values p' (row.getD p' 0) then 0 else row.getD p' 0).getD p 0
      = if isOutlier values p (row.getD p 0) then 0 else row.getD p 0 := by
  have hlt : p < ((List.range row.length).map fun p' =>
      if isOutlier values p' (row.getD p' 0) then 0 else row.getD p' 0).length := by
    simpa using hp
  rw [List.getD_eq_getElem _ _ hlt]
  simp

end Lemmas

section Claims

/-- C5: for each axis independently, when the query value exactly equals
exactly one axis entry, at index `e`, the candidate list is `[e-1, e, e+1]`
(3 candidates); otherwise it is `[c-1, c]` where `c` is the number of axis
values strictly below the query (2 candidates). -/
theorem claim5_candidates (data : List ℚ) (q : ℚ) :
    (∀ e : ℕ, data.countP (fun v => q == v) = 1 → data.get? e = some q →
        identifyPosAxis data q = [(e : ℤ) - 1, (e : ℤ), (e : ℤ) + 1])
  ∧ (data.countP (fun v => q == v) ≠ 1 →
      identifyPosAxis data q
        = [(((data.filter fun v => decide (v < q)).length : ℤ)) - 1,
            ((data.filter fun v => decide (v < q)).length : ℤ)]) := by
  constructor
  · intro e hcount he
    unfold identifyPosAxis
    rw [if_pos hcount]
    have hfind : data.findIdx (fun v => q == v) = e :=
      findIdx_eq_of_countP_one (fun v => q == v) data e q hcount he (by simp)
    rw [hfind]
  · intro hne
    unfold identifyPosAxis
    rw [if_neg hne, List.countP_eq_length_filter]

/-- C5 witness: on the axis `[1, 2, 4]`, the query `2` matches exactly the
entry at index 1 and yields the three candidates `[0, 1, 2]`, while the query
`3` matches no entry and yields the two bracketing candidates `[1, 2]`. -/
theorem claim5_candidates_witness :
    identifyPosAxis [(1 : ℚ), 2, 4] 2 = [0, 1, 2]
      ∧ identifyPosAxis [(1 : ℚ), 2, 4] 3 = [1, 2] :=
  ⟨(claim5_candidates [(1 : ℚ), 2, 4] 2).1 1 (by decide) (by decide),
    (claim5_candidates [(1 : ℚ), 2, 4] 3).2 (by decide)⟩

/-- C6: on a nonempty axis, a candidate index of `-1` is clamped to `0` and a
candidate index equal to the axis length is clamped to `length - 1`, each
with one boundary warning; an in-range candidate passes through unchanged
with no warning; and a query below the axis minimum produces the clamped
candidates `0, 0` (with a warning on the first) rather than an error. -/
theorem claim6_clamp (len : ℕ) (hlen : 0 < len) :
    clampAxis len (-1) = (0, 1)
  ∧ clampAxis len (len : ℤ) = ((len : ℤ) - 1, 1)
  ∧ (∀ x : ℤ, 0 ≤ x → x < (len : ℤ) → clampAxis len x = (x, 0))
  ∧ ∀ (data : List ℚ) (q : ℚ), data.length = len → (∀ v ∈ data, q < v) →
      (identifyPosAxis data q).map (fun x => clampAxis len x) = [(0, 1), (0, 0)] := by
  have h1 : clampAxis len (-1) = (0, 1) := by
    unfold clampAxis
    rw [if_neg (show (-1 : ℤ) ≠ (len : ℤ) by omega)]
    norm_num
  have h2 : clampAxis len (len : ℤ) = ((len : ℤ) - 1, 1) := by
    unfold clampAxis
    rw [if_pos rfl]
    rw [if_neg (show (len : ℤ) - 1 ≠ -1 by omega)]
  have h3 : ∀ x : ℤ, 0 ≤ x → x < (len : ℤ) → clampAxis len x = (x, 0) := by
    intro x hx0 hxlt
    unfold clampAxis
    rw [if_neg (show x ≠ (len : ℤ) by omega)]
    rw [if_neg (show x ≠ -1 by omega)]
  refine ⟨h1, h2, h3, ?_⟩
  intro data q hdlen hq
  have hc0 : data.countP (fun v => q == v) = 0 := by
    apply List.countP_eq_zero.mpr
    intro v hv
    simp only [beq_iff_eq]
    exact fun h => absurd h (ne_of_lt (hq v hv))
  have hlt0 : data.countP (fun v => decide (v < q)) = 0 := by
    apply List.countP_eq_zero.mpr
    intro v hv
    simp only [decide_eq_true_eq]
    exact fun h => absurd h (not_lt_of_gt (hq v hv))
  unfold identifyPosAxis
  rw [if_neg (by omega)]
  rw [hlt0]
  simp only [List.map_cons, List.map_nil, Nat.cast_zero, zero_sub]
  rw [h1, h3 0 le_rfl (by omega)]

/-- C6 witness: on an axis of length 2, `-1` clamps to `0` and `2` clamps to
`1`, each with a warning, in-range candidates pass unchanged, and a query
below the minimum of `[5, 7]` yields the clamped candidates `0, 0`. -/
theorem claim6_clamp_witness :
    clampAxis 2 (-1) = (0, 1)
  ∧ clampAxis 2 ((2 : ℕ) : ℤ) = (((2 : ℕ) : ℤ) - 1, 1)
  ∧ (∀ x : ℤ, 0 ≤ x → x < ((2 : ℕ) : ℤ) → clampAxis 2 x = (x, 0))
  ∧ ∀ (data : List ℚ) (q : ℚ), data.length = 2 → (∀ v ∈ data, q < v) →
      (identifyPosAxis data q).map (fun x => clampAxis 2 x) = [(0, 1), (0, 0)] :=
  claim6_clamp 2 (by decide)

/-- C2 counterexample: on a grid with batch size 2, the row offset the code
computes for the cell `(0,0,0,0)` is `-1`, not `linearIndex mod batch_size`
(which is `0`): the claimed equality fails. -/
theorem claim2_counterexample :
    dsC2.localPos 0 0 0 0 ≠ dsC2.getCounter 0 0 0 0 % (dsC2.batch_size : ℤ) := by
  decide

/-- C2 amended: the in-batch row offset used to read a cell's row is
`linearIndex(cell) mod batch_size - 1`, and with numpy's negative-index
wrap-around the row actually read is the one at index
`(linearIndex(cell) - 1) mod batch_size`; hence row `r` of a batch file
corresponds to the cells with `linearIndex ≡ r + 1 (mod batchSize)`. -/
theorem claim2_rowOffset (ds : DataSift) (i j k m : ℤ) (file : List (List ℚ))
    (hbs : 0 < ds.batch_size) (hfile : file.length = ds.batch_size) :
    ds.localPos i j k m = ds.getCounter i j k m % (ds.batch_size : ℤ) - 1
  ∧ readRow file (ds.localPos i j k m)
      = file.getD ((ds.getCounter i j k m - 1) % (ds.batch_size : ℤ)).toNat [] :=
  ⟨localPos_eq ds i j k m, readRow_localPos ds i j k m file hbs hfile⟩

/-- C2 witness: on the batch-size-2 grid, the offset arithmetic instantiated
at the cell `(0,0,0,0)` and a two-row file. -/
theorem claim2_rowOffset_witness :
    dsC2.localPos 0 0 0 0 = dsC2.getCounter 0 0 0 0 % (dsC2.batch_size : ℤ) - 1
  ∧ readRow [[(1 : ℚ)], [2]] (dsC2.localPos 0 0 0 0)
      = [[(1 : ℚ)], [2]].getD
          ((dsC2.getCounter 0 0 0 0 - 1) % (dsC2.batch_size : ℤ)).toNat [] :=
  claim2_rowOffset dsC2 0 0 0 0 [[1], [2]] (by decide) (by decide)

/-- C10: on a grid whose four axes are all nonempty, every clamped neighbor
cell of any query point has all four indices within bounds, its linear index
lies in `[0, |nH|*|T|*|Z|*|red|)`, and the per-point batch set is nonempty. -/
theorem claim10_bounds (ds : DataSift) (hN : 0 < ds.nH_data.length)
    (hT : 0 < ds.T_data.length) (hZ : 0 < ds.Z_data.length)
    (hR : 0 < ds.red_data.length) (nH T Z red : ℚ) :
    (∀ i j k m : ℤ, (i, j, k, m) ∈ ds.neighborCellsClamped nH T Z red →
        (0 ≤ i ∧ i < (ds.nH_data.length : ℤ))
      ∧ (0 ≤ j ∧ j < (ds.T_data.length : ℤ))
      ∧ (0 ≤ k ∧ k < (ds.Z_data.length : ℤ))
      ∧ (0 ≤ m ∧ m < (ds.red_data.length : ℤ))
      ∧ 0 ≤ ds.getCounter i j k m
      ∧ ds.getCounter i j k m
          < (ds.nH_data.length : ℤ) * ds.T_data.length * ds.Z_data.length
              * ds.red_data.length)
  ∧ ds.findAllBatchesSingle nH T Z red ≠ [] := by
  constructor
  · intro i j k m hc
    obtain ⟨hi0, hj0, hk0, hm0⟩ := mem_neighborCells_nonneg ds nH T Z red i j k m hc
    obtain ⟨hi1, hj1, hk1, hm1⟩ := mem_neighborCells_lt ds nH T Z red i j k m hN hT hZ hR hc
    exact ⟨⟨hi0, hi1⟩, ⟨hj0, hj1⟩, ⟨hk0, hk1⟩, ⟨hm0, hm1⟩,
      getCounter_nonneg ds i j k m hi0 hj0 hk0 hm0,
      getCounter_lt ds i j k m hi0 hj0 hk0 hm0 hi1 hj1 hk1 hm1⟩
  · exact findAllBatchesSingle_ne_nil ds nH T Z red

/-- C10 witness: the bounds instantiated on the one-cell grid at the query
point with all coordinates `0`. -/
theorem claim10_bounds_witness :
    (∀ i j k m : ℤ, (i, j, k, m) ∈ dsEx.neighborCellsClamped 0 0 0 0 →
        (0 ≤ i ∧ i < (dsEx.nH_data.length : ℤ))
      ∧ (0 ≤ j ∧ j < (dsEx.T_data.length : ℤ))
      ∧ (0 ≤ k ∧ k < (dsEx.Z_data.length : ℤ))
      ∧ (0 ≤ m ∧ m < (dsEx.red_data.length : ℤ))
      ∧ 0 ≤ dsEx.getCounter i j k m
      ∧ dsEx.getCounter i j k m
          < (dsEx.nH_data.length : ℤ) * dsEx.T_data.length * dsEx.Z_data.length
              * dsEx.red_data.length)
  ∧ dsEx.findAllBatchesSingle 0 0 0 0 ≠ [] :=
  claim10_bounds dsEx (by decide) (by decide) (by decide) (by decide) 0 0 0 0

/-- C4 counterexample: in the call whose `nH` is the length-1 dummy array
`[0]` and whose `temperature` is the 3-element array `[1,2,3]`, every pair of
non-dummy array-valued arguments shares a shape (there is only one), yet
argument normalization fails with the incompatible-shapes error: dummy
arrays are not exempt from the shape check. -/
theorem claim4_counterexample :
    (∀ a ∈ argsC4.toList, ∀ b ∈ argsC4.toList,
        a.isArray = true → a.isDummy = false → b.isArray = true → b.isDummy = false →
          a.shape = b.shape)
  ∧ prepareArguments argsC4.toList = .error invalidArgsMsg := by
  exact ⟨by decide, rfl⟩

/-- C4 amended: argument normalization succeeds exactly when all array-valued
arguments (length-1 dummy arrays included) share an identical shape; scalars
are broadcast.  When it fails, the error is the incompatible-shapes message
and the call returns before any download or file-handle activity. -/
theorem claim4_shapeCheck (args : Args) :
    ((∃ r, prepareArguments args.toList = .ok r)
      ↔ ∀ a ∈ args.toList, ∀ b ∈ args.toList, a.isArray = true → b.isArray = true →
          a.shape = b.shape)
  ∧ ∀ (ds : DataSift) (sqrtF : ℚ → ℚ) (store : ℤ → List (List ℚ)) (mode : String)
      (scaling : ℚ → ℚ) (cutL cutH : Option ℚ) (e : String),
      prepareArguments args.toList = .error e →
        e = invalidArgsMsg
        ∧ ds.interpolate sqrtF store args mode scaling cutL cutH
            = ⟨.error e, [], [], []⟩ := by
  constructor
  · exact prepareArguments_ok_iff args.toList
  · intro ds sqrtF store mode scaling cutL cutH e hp
    refine ⟨prepareArguments_error_msg args.toList e hp, ?_⟩
    unfold DataSift.interpolate
    rw [interpolateCore_prepare_error ds sqrtF store args mode scaling cutL cutH
      ⟨none, none, none, none⟩ e hp]

/-- C4 witness: the failure path instantiated on the dummy-plus-3-array call:
the error is the incompatible-shapes message and the outcome records no
download and no opened or closed handles. -/
theorem claim4_shapeCheck_witness :
    invalidArgsMsg = invalidArgsMsg
  ∧ dsEx.interpolate id storeEx argsC4 "PIE" id none none
      = ⟨.error invalidArgsMsg, [], [], []⟩ :=
  (claim4_shapeCheck argsC4).2 dsEx id storeEx "PIE" id none none invalidArgsMsg rfl

/-- C7: the estimate combiner equals, column by column, the weighted average
in which every neighbor value lying more than two standard deviations from
the column mean is replaced by zero while its weight stays in the
denominator (`specEstimateCol`, written from the spec's words). -/
theorem claim7_outliers (weights : List ℚ) (values : List (List ℚ)) (P : ℕ)
    (hne : values ≠ []) (hP : ∀ v ∈ values, v.length = P) :
    combineEstimate weights values
      = (List.range P).map (specEstimateCol weights values) := by
  unfold combineEstimate
  dsimp only
  rw [filterOutliers_headD_length values P hne hP]
  apply List.map_congr_left
  intro p hp
  have hpP : p < P := List.mem_range.mp hp
  unfold specEstimateCol
  congr 1
  unfold filterOutliers
  rw [List.zipWith_map_right]
  refine congrArg List.sum ?_
  apply zipWith_congr_mem
  intro v hv w
  rw [filterOutliers_row_getD values v p (by rw [hP v hv]; exact hpP)]
  unfold specZeroed isOutlier
  simp only [decide_eq_true_eq]

/-- C7 witness: six equally weighted neighbors with values
`0, 0, 0, 0, 0, 100` in their single column; the value `100` lies more than
two standard deviations from the mean, so the estimate equals the spec-side
weighted average with it zeroed. -/
theorem claim7_outliers_witness :
    combineEstimate [1, 1, 1, 1, 1, 1] [[0], [0], [0], [0], [0], [100]]
      = (List.range 1).map
          (specEstimateCol [1, 1, 1, 1, 1, 1] [[0], [0], [0], [0], [0], [100]]) :=
  claim7_outliers [1, 1, 1, 1, 1, 1] [[0], [0], [0], [0], [0], [100]] 1
    (by decide) (by decide)

/-- C1 counterexample: in the call whose four arguments are one length-1
dummy array and three scalars, every argument is scalar-or-dummy, yet the
code returns a batched array of shape `(1, 1)` with `isBatch = true` — not
the single estimate vector with `isBatch = false` the claim predicts: the
single-result condition requires all four arguments dummy or all four
scalar, not any mix. -/
theorem claim1_counterexample :
    (∀ a ∈ argsMixEx.toList, a.isDummy = true ∨ a.isArray = false)
  ∧ ∃ rows, (dsEx.interpolate id storeEx argsMixEx "PIE" id none none).result
      = .ok (.batch [1, 1] rows, true) := by
  refine ⟨by decide, ?_⟩
  rcases interpolateCore_run_ok dsEx id storeEx argsMixEx "PIE" id none none
      ⟨none, none, none, none⟩ [1] [[0], [0], [0], [0]] [0] rfl (Or.inl rfl) rfl with
    ⟨vals, hgo, hlen, hP, hcore⟩
  have hv1 : vals.length = 1 := by simpa using hlen
  rcases List.length_eq_one.mp hv1 with ⟨a, rfl⟩
  have ha : a.length = 1 := by
    refine hP 1 (by decide) (fun b => rfl) ?_ a (by simp)
    intro b r hr
    simp only [storeEx, List.mem_singleton] at hr
    subst hr
    rfl
  refine ⟨[a], ?_⟩
  unfold DataSift.interpolate
  rw [hcore]
  dsimp only
  rw [if_neg (by decide)]
  simp only [List.headD_cons]
  rw [ha]
  rfl

/-- C1 amended: a successful call returns the single estimate vector with
`isBatch = false` exactly when all four arguments are length-1 dummy arrays
or all four are scalars; every other successful call returns an array of
shape `inputShape ++ [P]` (one property vector of length `P` per flattened
query point) with `isBatch = true`. -/
theorem claim1_shapeFlag (ds : DataSift) (sqrtF : ℚ → ℚ)
    (store : ℤ → List (List ℚ)) (args : Args) (mode : String) (scaling : ℚ → ℚ)
    (cutL cutH : Option ℚ) (shape : List ℕ) (coll : List (List ℚ)) (P : ℕ)
    (hp : prepareArguments args.toList = .ok (shape, coll))
    (hm : mode = "PIE" ∨ mode = "CIE")
    (hsp : 0 < shape.prod)
    (hbs : 0 < ds.batch_size)
    (hstore : ∀ b, (store b).length = ds.batch_size)
    (hrow : ∀ b, ∀ r ∈ store b, r.length = P) :
    ∃ v flag,
      (ds.interpolate sqrtF store args mode scaling cutL cutH).result = .ok (v, flag)
      ∧ (flag = false
          ↔ ((∀ a ∈ args.toList, a.isDummy = true) ∨ (∀ a ∈ args.toList, a.isArray = false)))
      ∧ (flag = false → ∃ w, v = .single w ∧ w.length = P)
      ∧ (flag = true → ∃ rows, v = .batch (shape ++ [P]) rows
          ∧ rows.length = shape.prod) := by
  rcases findAllBatches_ok ds (args.toList.map Arg.isArray) (args.toList.map Arg.isDummy)
    shape coll hsp with ⟨ids, hids⟩
  rcases interpolateCore_run_ok ds sqrtF store args mode scaling cutL cutH
    ⟨none, none, none, none⟩ shape coll ids hp hm hids with ⟨vals, hgo, hlen, hP, hcore⟩
  have hvne : vals ≠ [] := by
    intro hnil
    rw [hnil] at hlen
    simp at hlen
    omega
  have hhead : (vals.headD []).length = P := by
    have hmem : vals.headD [] ∈ vals := by
      rcases vals with _ | ⟨a, rest⟩
      · exact absurd rfl hvne
      · simp
    exact hP P hbs hstore hrow _ hmem
  by_cases hcond : (args.toList.map Arg.isDummy).countP id = 4
      ∨ (args.toList.map Arg.isArray).countP id = 0
  · refine ⟨.single (vals.headD []), false, ?_, ?_, ?_, ?_⟩
    · unfold DataSift.interpolate
      rw [hcore]
      dsimp only
      rw [if_pos hcond]
    · simpa using (countP_cond_iff args).mp hcond
    · exact fun _ => ⟨vals.headD [], rfl, hhead⟩
    · intro hflag
      cases hflag
  · refine ⟨.batch (shape ++ [P]) vals, true, ?_, ?_, ?_, ?_⟩
    · unfold DataSift.interpolate
      rw [hcore]
      dsimp only
      rw [if_neg hcond, hhead]
    · constructor
      · intro hflag
        cases hflag
      · intro hcond2
        exact absurd ((countP_cond_iff args).mpr hcond2) hcond
    · intro hflag
      cases hflag
    · exact fun _ => ⟨vals, rfl, hlen⟩

/-- C1 witness: the all-scalar call on the one-cell grid succeeds with a
single estimate vector and `isBatch = false`. -/
theorem claim1_shapeFlag_witness :
    ∃ v flag,
      (dsEx.interpolate id storeEx argsScalarEx "PIE" id none none).result = .ok (v, flag)
      ∧ (flag = false
          ↔ ((∀ a ∈ argsScalarEx.toList, a.isDummy = true)
              ∨ (∀ a ∈ argsScalarEx.toList, a.isArray = false)))
      ∧ (flag = false → ∃ w, v = .single w ∧ w.length = 1)
      ∧ (flag = true → ∃ rows, v = .batch ([1] ++ [1]) rows ∧ rows.length = [1].prod) :=
  claim1_shapeFlag dsEx id storeEx argsScalarEx "PIE" id none none [1]
    [[0], [0], [0], [0]] 1 rfl (Or.inl rfl) (by decide) (by decide) (fun b => rfl)
    (fun b r hr => by
      simp only [storeEx, List.mem_singleton] at hr
      subst hr
      rfl)

/-- C3: every call closes exactly the handles it opened — on success all
opened handles are closed, and on every error path the error is raised
before any handle is opened — and no call ever fails with the
missing-batch-handle error, because every batch id needed by the per-point
loop was resolved by `_find_all_batches` and therefore has an open handle. -/
theorem claim3_handles (ds : DataSift) (sqrtF : ℚ → ℚ)
    (store : ℤ → List (List ℚ)) (args : Args) (mode : String) (scaling : ℚ → ℚ)
    (cutL cutH : Option ℚ) :
    (ds.interpolate sqrtF store args mode scaling cutL cutH).closed
        = (ds.interpolate sqrtF store args mode scaling cutL cutH).opened
  ∧ ∀ e, (ds.interpolate sqrtF store args mode scaling cutL cutH).result = .error e →
      e ≠ missingBatchMsg := by
  unfold DataSift.interpolate
  rcases except_cases (prepareArguments args.toList) with ⟨⟨shape, coll⟩, hp⟩ | ⟨e, hp⟩
  · by_cases hm : mode = "PIE" ∨ mode = "CIE"
    · rcases except_cases (ds.findAllBatches (args.toList.map Arg.isArray)
          (args.toList.map Arg.isDummy) shape coll) with ⟨ids, hids⟩ | ⟨e, hids⟩
      · rcases interpolateCore_run_ok ds sqrtF store args mode scaling cutL cutH
          ⟨none, none, none, none⟩ shape coll ids hp hm hids with
          ⟨vals, hgo, hlen, hP, hcore⟩
        rw [hcore]
        refine ⟨rfl, ?_⟩
        intro e he
        dsimp only at he
        split at he <;> cases he
      · rw [interpolateCore_batches_error ds sqrtF store args mode scaling cutL cutH
          ⟨none, none, none, none⟩ shape coll e hp hm hids]
        refine ⟨rfl, ?_⟩
        intro e' he'
        cases he'
        rw [findAllBatches_error_msg ds _ _ shape coll e hids]
        decide
    · rw [interpolateCore_mode_error ds sqrtF store args mode scaling cutL cutH
        ⟨none, none, none, none⟩ shape coll hp hm]
      refine ⟨rfl, ?_⟩
      intro e' he'
      cases he'
      exact invalidModeMsg_ne_missing mode
  · rw [interpolateCore_prepare_error ds sqrtF store args mode scaling cutL cutH
      ⟨none, none, none, none⟩ e hp]
    refine ⟨rfl, ?_⟩
    intro e' he'
    cases he'
    rw [prepareArguments_error_msg args.toList e hp]
    decide

/-- C8 counterexample: after a plain all-scalar call on a fresh object, the
object's fields are no longer all unset: the call stored the per-call
normalization results on the long-lived instance. -/
theorem claim8_counterexample :
    (dsEx.interpolateCore id storeEx argsScalarEx "PIE" id none none
        ⟨none, none, none, none⟩).1 ≠ ⟨none, none, none, none⟩ := by
  intro h
  have hstate := (interpolateCore_state dsEx id storeEx argsScalarEx "PIE" id none none
    ⟨none, none, none, none⟩).1
  rw [h] at hstate
  cases hstate

/-- C8 amended: every call stores the argument flags as instance fields on
the long-lived object, and every call whose normalization succeeds also
stores the input shape and the flattened argument collection; these fields
persist after the call returns.  (Only the batch-handle list is local to the
call.) -/
theorem claim8_state (ds : DataSift) (sqrtF : ℚ → ℚ)
    (store : ℤ → List (List ℚ)) (args : Args) (mode : String) (scaling : ℚ → ℚ)
    (cutL cutH : Option ℚ) (st : DataSiftFields) :
    ((ds.interpolateCore sqrtF store args mode scaling cutL cutH st).1.arrayArgumentF
        = some (args.toList.map Arg.isArray))
    ∧ ((ds.interpolateCore sqrtF store args mode scaling cutL cutH st).1.dummyArrayF
        = some (args.toList.map Arg.isDummy))
    ∧ ∀ shape coll, prepareArguments args.toList = .ok (shape, coll) →
        (ds.interpolateCore sqrtF store args mode scaling cutL cutH st).1
          = ⟨some (args.toList.map Arg.isArray), some (args.toList.map Arg.isDummy),
              some shape, some coll⟩ :=
  interpolateCore_state ds sqrtF store args mode scaling cutL cutH st

/-- C8 witness: the post-state of the all-scalar call on a fresh object holds
all four per-call fields. -/
theorem claim8_state_witness :
    (dsEx.interpolateCore id storeEx argsScalarEx "PIE" id none none
        ⟨none, none, none, none⟩).1
      = ⟨some [false, false, false, false], some [false, false, false, false],
          some [1], some [[0], [0], [0], [0]]⟩ :=
  (claim8_state dsEx id storeEx argsScalarEx "PIE" id none none
    ⟨none, none, none, none⟩).2.2 [1] [[0], [0], [0], [0]] rfl

/-- C9: after successful normalization, a mode outside `{PIE, CIE}` makes the
call fail with the invalid-mode error before any batch resolution, download,
or file activity (the outcome records none), and a mode inside the set never
produces an invalid-mode error. -/
theorem claim9_mode (ds : DataSift) (sqrtF : ℚ → ℚ)
    (store : ℤ → List (List ℚ)) (args : Args) (mode : String) (scaling : ℚ → ℚ)
    (cutL cutH : Option ℚ) (shape : List ℕ) (coll : List (List ℚ))
    (hp : prepareArguments args.toList = .ok (shape, coll)) :
    (¬ (mode = "PIE" ∨ mode = "CIE") →
        ds.interpolate sqrtF store args mode scaling cutL cutH
          = ⟨.error (invalidModeMsg mode), [], [], []⟩)
  ∧ ((mode = "PIE" ∨ mode = "CIE") →
      ∀ e, (ds.interpolate sqrtF store args mode scaling cutL cutH).result = .error e →
        e ≠ invalidModeMsg mode) := by
  constructor
  · intro hm
    unfold DataSift.interpolate
    rw [interpolateCore_mode_error ds sqrtF store args mode scaling cutL cutH
      ⟨none, none, none, none⟩ shape coll hp hm]
  · intro hm e he
    unfold DataSift.interpolate at he
    rcases except_cases (ds.findAllBatches (args.toList.map Arg.isArray)
        (args.toList.map Arg.isDummy) shape coll) with ⟨ids, hids⟩ | ⟨e', hids⟩
    · rcases interpolateCore_run_ok ds sqrtF store args mode scaling cutL cutH
        ⟨none, none, none, none⟩ shape coll ids hp hm hids with
        ⟨vals, hgo, hlen, hP, hcore⟩
      rw [hcore] at he
      dsimp only at he
      split at he <;> cases he
    · rw [interpolateCore_batches_error ds sqrtF store args mode scaling cutL cutH
        ⟨none, none, none, none⟩ shape coll e' hp hm hids] at he
      cases he
      rw [findAllBatches_error_msg ds _ _ shape coll _ hids]
      exact (invalidModeMsg_ne_noBatches mode).symm

/-- C9 witness: the invalid mode string `XIE` on the one-cell grid fails with
the invalid-mode error and an outcome recording no download and no handle
activity. -/
theorem claim9_mode_witness :
    dsEx.interpolate id storeEx argsScalarEx "XIE" id none none
      = ⟨.error (invalidModeMsg "XIE"), [], [], []⟩ :=
  (claim9_mode dsEx id storeEx argsScalarEx "XIE" id none none [1]
    [[0], [0], [0], [0]] rfl).1 (by decide)

end Claims

end AstroPlasma
